import Mathlib

/-!
Shallow embedding of the particle simulator's setup and view logic
(`src/Fluid-Particle-Simulator/src/physics/SimulationSystem.cpp`), the
fixed-step clock and the broad-phase equivalence contract (whose
implementations are not in the visible sources and are modelled from the
specification).  Real-valued quantities (`float`/`glm::vec2` in the C++
source) are embedded as exact rationals `ℚ`; integer counts keep their
C++ signedness (`int` ↦ `ℤ`, `unsigned int` radius ↦ nonnegative `ℚ`
with explicit hypotheses).
-/

/-- Embeds `glm::vec2`: a 2D vector of rationals. -/
structure Vec2 where
  x : ℚ
  y : ℚ
deriving DecidableEq, Repr

/-- Componentwise `glm::max`.  -/
def Vec2.max2 (a b : Vec2) : Vec2 := ⟨max a.x b.x, max a.y b.y⟩

/-- Componentwise `glm::min`. -/
def Vec2.min2 (a b : Vec2) : Vec2 := ⟨min a.x b.x, min a.y b.y⟩

/-- A particle record as created by `Particle(position, mass)`. -/
structure Particle where
  position : Vec2
  mass : ℚ
deriving DecidableEq, Repr

/-- The `SimulationSystem` state: confinement rectangle corners, the per-system
particle radius (`unsigned int m_ParticleRadius`), zoom, and the particle store. -/
structure SimulationSystem where
  bottomLeft : Vec2
  topRight : Vec2
  particleRadius : ℚ
  zoom : ℚ
  particles : List Particle
deriving DecidableEq, Repr

/-- Source `SimulationSystem::AddParticle`: unconditionally appends
`Particle(position, mass)` to `m_Particles`. -/
def AddParticle (sim : SimulationSystem) (position : Vec2) (mass : ℚ) :
    SimulationSystem :=
  { sim with particles := sim.particles ++ [⟨position, mass⟩] }

/-- Source: `gridBottomLeft = glm::max(bottomLeft, m_bottomLeft + glm::vec2(m_ParticleRadius))`. -/
def gridBottomLeft (sim : SimulationSystem) (bottomLeft : Vec2) : Vec2 :=
  Vec2.max2 bottomLeft ⟨sim.bottomLeft.x + sim.particleRadius, sim.bottomLeft.y + sim.particleRadius⟩

/-- Source: `gridTopRight = glm::min(topRight, m_topRight - glm::vec2(m_ParticleRadius))`. -/
def gridTopRight (sim : SimulationSystem) (topRight : Vec2) : Vec2 :=
  Vec2.min2 topRight ⟨sim.topRight.x - sim.particleRadius, sim.topRight.y - sim.particleRadius⟩

/-- Source: `requiredWidth = cols * (2 * m_ParticleRadius)`, plus
`(cols - 1) * spacing.x` when `cols > 1`. -/
def requiredWidth (sim : SimulationSystem) (cols : ℤ) (spacing : Vec2) : ℚ :=
  (cols : ℚ) * (2 * sim.particleRadius) +
    (if 1 < cols then ((cols : ℚ) - 1) * spacing.x else 0)

/-- Source: `requiredHeight = rows * (2 * m_ParticleRadius)`, plus
`(rows - 1) * spacing.y` when `rows > 1`. -/
def requiredHeight (sim : SimulationSystem) (rows : ℤ) (spacing : Vec2) : ℚ :=
  (rows : ℚ) * (2 * sim.particleRadius) +
    (if 1 < rows then ((rows : ℚ) - 1) * spacing.y else 0)

/-- Source: `availableSpace = gridTopRight - gridBottomLeft`. -/
def availableSpace (sim : SimulationSystem) (bottomLeft topRight : Vec2) : Vec2 :=
  ⟨(gridTopRight sim topRight).x - (gridBottomLeft sim bottomLeft).x,
   (gridTopRight sim topRight).y - (gridBottomLeft sim bottomLeft).y⟩

/-- Source `finalSpacing.x`: `0` when `cols == 1`, else the user spacing when positive,
else `availableSpace.x / (cols - 1)`. -/
def finalSpacingX (sim : SimulationSystem) (cols : ℤ) (bottomLeft topRight spacing : Vec2) : ℚ :=
  if cols = 1 then 0
  else if 0 < spacing.x then spacing.x
  else (availableSpace sim bottomLeft topRight).x / ((cols : ℚ) - 1)

/-- Source `finalSpacing.y`: `0` when `rows == 1`, else the user spacing when positive,
else `availableSpace.y / (rows - 1)`. -/
def finalSpacingY (sim : SimulationSystem) (rows : ℤ) (bottomLeft topRight spacing : Vec2) : ℚ :=
  if rows = 1 then 0
  else if 0 < spacing.y then spacing.y
  else (availableSpace sim bottomLeft topRight).y / ((rows : ℚ) - 1)

/-- Source: `gridSize = finalSpacing * (count - 1)`, x component. -/
def gridSizeX (sim : SimulationSystem) (cols : ℤ) (bottomLeft topRight spacing : Vec2) : ℚ :=
  finalSpacingX sim cols bottomLeft topRight spacing * ((cols : ℚ) - 1)

/-- Source: `gridSize = finalSpacing * (count - 1)`, y component. -/
def gridSizeY (sim : SimulationSystem) (rows : ℤ) (bottomLeft topRight spacing : Vec2) : ℚ :=
  finalSpacingY sim rows bottomLeft topRight spacing * ((rows : ℚ) - 1)

/-- Source `startPos.x`: `gridBottomLeft.x`, shifted by half the slack when the grid
is narrower than the available space. -/
def startPosX (sim : SimulationSystem) (cols : ℤ) (bottomLeft topRight spacing : Vec2) : ℚ :=
  (gridBottomLeft sim bottomLeft).x +
    (if gridSizeX sim cols bottomLeft topRight spacing < (availableSpace sim bottomLeft topRight).x
     then ((availableSpace sim bottomLeft topRight).x - gridSizeX sim cols bottomLeft topRight spacing) / 2
     else 0)

/-- Source `startPos.y`: `gridBottomLeft.y`, shifted by half the slack when the grid
is shorter than the available space. -/
def startPosY (sim : SimulationSystem) (rows : ℤ) (bottomLeft topRight spacing : Vec2) : ℚ :=
  (gridBottomLeft sim bottomLeft).y +
    (if gridSizeY sim rows bottomLeft topRight spacing < (availableSpace sim bottomLeft topRight).y
     then ((availableSpace sim bottomLeft topRight).y - gridSizeY sim rows bottomLeft topRight spacing) / 2
     else 0)

/-- Source: `position = startPos + glm::vec2(col * finalSpacing.x, row * finalSpacing.y)`. -/
def gridParticlePos (sim : SimulationSystem) (rows cols : ℤ)
    (bottomLeft topRight spacing : Vec2) (row col : ℕ) : Vec2 :=
  ⟨startPosX sim cols bottomLeft topRight spacing +
     (col : ℚ) * finalSpacingX sim cols bottomLeft topRight spacing,
   startPosY sim rows bottomLeft topRight spacing +
     (row : ℚ) * finalSpacingY sim rows bottomLeft topRight spacing⟩

/-- The nested `for (row) for (col) AddParticle(position, mass)` loop as a list
of appended particles (outer loop over rows, inner over columns). -/
def gridParticles (sim : SimulationSystem) (rows cols : ℤ)
    (bottomLeft topRight spacing : Vec2) (mass : ℚ) : List Particle :=
  (List.range rows.toNat).flatMap (fun row =>
    (List.range cols.toNat).map (fun col =>
      ⟨gridParticlePos sim rows cols bottomLeft topRight spacing row col, mass⟩))

/-- Source `SimulationSystem::AddParticleGrid`: validates the request and either
appends the whole `rows × cols` grid or returns the system unchanged.  The
`std::cerr`/`std::cout` diagnostics of the C++ source carry no state and are
dropped. -/
def AddParticleGrid (sim : SimulationSystem) (rows cols : ℤ)
    (bottomLeft topRight spacing : Vec2) (mass : ℚ) : SimulationSystem :=
  if rows ≤ 0 ∨ cols ≤ 0 then sim
  else if (gridTopRight sim topRight).x ≤ (gridBottomLeft sim bottomLeft).x ∨
          (gridTopRight sim topRight).y ≤ (gridBottomLeft sim bottomLeft).y then sim
  else if (availableSpace sim bottomLeft topRight).x < requiredWidth sim cols spacing ∨
          (availableSpace sim bottomLeft topRight).y < requiredHeight sim rows spacing then sim
  else if ((availableSpace sim bottomLeft topRight).y / (2 * sim.particleRadius)) *
            ((availableSpace sim bottomLeft topRight).x / (2 * sim.particleRadius)) <
            ((rows * cols : ℤ) : ℚ) then sim
  else if (1 < cols ∧ finalSpacingX sim cols bottomLeft topRight spacing < 2 * sim.particleRadius) ∨
          (1 < rows ∧ finalSpacingY sim rows bottomLeft topRight spacing < 2 * sim.particleRadius) then sim
  else
    { sim with particles := sim.particles ++ gridParticles sim rows cols bottomLeft topRight spacing mass }

/-- All five validation conditions of `AddParticleGrid` hold (the request is
accepted and the grid is appended). -/
def GridAccepted (sim : SimulationSystem) (rows cols : ℤ)
    (bottomLeft topRight spacing : Vec2) : Prop :=
  (0 < rows ∧ 0 < cols) ∧
  ((gridBottomLeft sim bottomLeft).x < (gridTopRight sim topRight).x ∧
   (gridBottomLeft sim bottomLeft).y < (gridTopRight sim topRight).y) ∧
  (requiredWidth sim cols spacing ≤ (availableSpace sim bottomLeft topRight).x ∧
   requiredHeight sim rows spacing ≤ (availableSpace sim bottomLeft topRight).y) ∧
  (((rows * cols : ℤ) : ℚ) ≤
     ((availableSpace sim bottomLeft topRight).y / (2 * sim.particleRadius)) *
       ((availableSpace sim bottomLeft topRight).x / (2 * sim.particleRadius))) ∧
  (¬ ((1 < cols ∧ finalSpacingX sim cols bottomLeft topRight spacing < 2 * sim.particleRadius) ∨
      (1 < rows ∧ finalSpacingY sim rows bottomLeft topRight spacing < 2 * sim.particleRadius)))

instance (sim : SimulationSystem) (rows cols : ℤ) (bottomLeft topRight spacing : Vec2) :
    Decidable (GridAccepted sim rows cols bottomLeft topRight spacing) := by
  unfold GridAccepted; infer_instance

/-- Concrete sample system used by witnesses: bounds (0,0)-(100,100), radius 1. -/
def simA : SimulationSystem := ⟨⟨0, 0⟩, ⟨100, 100⟩, 1, 1, []⟩

/-- Concrete tight sample system: bounds (0,0)-(8,8), radius 1. -/
def simB : SimulationSystem := ⟨⟨0, 0⟩, ⟨8, 8⟩, 1, 1, []⟩

/-- Concrete zoomed-in sample system: bounds (0,0)-(100,100), zoom 2. -/
def simC : SimulationSystem := ⟨⟨0, 0⟩, ⟨100, 100⟩, 1, 2, []⟩

/-- Source: `center = (m_topRight + m_bottomLeft) * 0.5f; center.y -= simulationBorderOffset`. -/
def viewCenter (sim : SimulationSystem) (simulationBorderOffset : ℚ) : Vec2 :=
  ⟨(sim.topRight.x + sim.bottomLeft.x) * (1 / 2),
   (sim.topRight.y + sim.bottomLeft.y) * (1 / 2) - simulationBorderOffset⟩

/-- Source: `viewWidth = simWidth / m_Zoom` with `simWidth = m_topRight.x - m_bottomLeft.x`. -/
def viewWidth (sim : SimulationSystem) : ℚ :=
  (sim.topRight.x - sim.bottomLeft.x) / sim.zoom

/-- Source: `viewHeight = viewWidth / aspectRatio`. -/
def viewHeight (sim : SimulationSystem) (aspect : ℚ) : ℚ :=
  viewWidth sim / aspect

/-- Left edge passed to `glm::ortho`: `center.x - viewWidth / 2`. -/
def viewLeft (sim : SimulationSystem) (simulationBorderOffset : ℚ) : ℚ :=
  (viewCenter sim simulationBorderOffset).x - viewWidth sim / 2

/-- Right edge passed to `glm::ortho`: `center.x + viewWidth / 2`. -/
def viewRight (sim : SimulationSystem) (simulationBorderOffset : ℚ) : ℚ :=
  (viewCenter sim simulationBorderOffset).x + viewWidth sim / 2

/-- Bottom edge passed to `glm::ortho`: `center.y - viewHeight / 2`. -/
def viewBottom (sim : SimulationSystem) (aspect simulationBorderOffset : ℚ) : ℚ :=
  (viewCenter sim simulationBorderOffset).y - viewHeight sim aspect / 2

/-- Top edge passed to `glm::ortho`: `center.y + viewHeight / 2`. -/
def viewTop (sim : SimulationSystem) (aspect simulationBorderOffset : ℚ) : ℚ :=
  (viewCenter sim simulationBorderOffset).y + viewHeight sim aspect / 2

/-- Embeds `glm::ortho(l, r, b, t, n, f)` (right-handed, [-1,1] depth): the
standard orthographic projection matrix of the external graphics library. -/
def ortho (l r b t n f : ℚ) : Matrix (Fin 4) (Fin 4) ℚ :=
  !![2 / (r - l), 0, 0, -(r + l) / (r - l);
     0, 2 / (t - b), 0, -(t + b) / (t - b);
     0, 0, -2 / (f - n), -(f + n) / (f - n);
     0, 0, 0, 1]

/-- Source `SimulationSystem::GetViewMatrix(aspectRatio, simulationBorderOffset)`:
an orthographic projection about the (offset) simulation center, zoomed. -/
def GetViewMatrix (sim : SimulationSystem) (aspect simulationBorderOffset : ℚ) :
    Matrix (Fin 4) (Fin 4) ℚ :=
  ortho (viewLeft sim simulationBorderOffset) (viewRight sim simulationBorderOffset)
    (viewBottom sim aspect simulationBorderOffset) (viewTop sim aspect simulationBorderOffset)
    (-1) 1

/-- Modelled from the spec: the Fixed-Step Clock state (`class Time` of
`core/Time.h`, whose implementation is not under `src/`): a fixed step size,
the accumulated not-yet-simulated time, and the configured cap on steps
reported per call. -/
structure Time where
  fixedDeltaTime : ℚ
  accumulator : ℚ
  maxSteps : ℤ
deriving DecidableEq, Repr

/-- Modelled from the spec: `Time::update` adds the frame duration to the
accumulator and reports `⌊accumulated / fixedDeltaTime⌋` whole steps, keeping
the fractional remainder; pathologically long frames are clamped to
`maxSteps` and the excess accumulated time beyond the cap is discarded, not
carried over. -/
def Time.update (t : Time) (frameTime : ℚ) : ℤ × Time :=
  if t.maxSteps < ⌊(t.accumulator + frameTime) / t.fixedDeltaTime⌋ then
    (t.maxSteps, { t with accumulator := 0 })
  else
    (⌊(t.accumulator + frameTime) / t.fixedDeltaTime⌋,
     { t with accumulator := (t.accumulator + frameTime) -
        ⌊(t.accumulator + frameTime) / t.fixedDeltaTime⌋ * t.fixedDeltaTime })

/-- Modelled from the spec: the per-step mutable particle state the Collision
and Integration Engine acts on (positions and velocities; radii are fixed per
particle and kept separately). -/
structure PState where
  positions : List Vec2
  velocities : List Vec2
deriving DecidableEq, Repr

/-- Modelled from the spec: the uniform-grid cell key of a position, obtained
by flooring the coordinates divided by the cell size. -/
def cellCoord (cellSize : ℚ) (p : Vec2) : ℤ × ℤ :=
  (⌊p.x / cellSize⌋, ⌊p.y / cellSize⌋)

/-- Two positions lie in the same or adjacent grid cells (3×3 neighborhood). -/
def nearCells (cellSize : ℚ) (p q : Vec2) : Bool :=
  decide (((cellCoord cellSize p).1 - (cellCoord cellSize q).1).natAbs ≤ 1 ∧
    ((cellCoord cellSize p).2 - (cellCoord cellSize q).2).natAbs ≤ 1)

/-- All unordered index pairs `(i, j)` with `i < j < n`, in ascending order
(each pair processed at most once, index-ascending, per the spec). -/
def allPairs (n : ℕ) : List (ℕ × ℕ) :=
  (List.range n).flatMap (fun i =>
    ((List.range n).filter (fun j => decide (i < j))).map (fun j => (i, j)))

/-- Modelled from the spec: exhaustive O(n²) candidate generation. -/
def exhaustiveCandidates (ps : List Vec2) : List (ℕ × ℕ) :=
  allPairs ps.length

/-- Modelled from the spec: spatially partitioned candidate generation — only
pairs whose cells are in each other's 3×3 neighborhood survive. -/
def gridCandidates (cellSize : ℚ) (ps : List Vec2) : List (ℕ × ℕ) :=
  (allPairs ps.length).filter (fun ij =>
    nearCells cellSize (ps.getD ij.1 ⟨0, 0⟩) (ps.getD ij.2 ⟨0, 0⟩))

/-- Narrow-phase test: squared center distance strictly below the squared sum
of the radii. -/
def overlapB (radii : List ℚ) (ps : List Vec2) (ij : ℕ × ℕ) : Bool :=
  decide (((ps.getD ij.1 ⟨0, 0⟩).x - (ps.getD ij.2 ⟨0, 0⟩).x) ^ 2 +
      ((ps.getD ij.1 ⟨0, 0⟩).y - (ps.getD ij.2 ⟨0, 0⟩).y) ^ 2 <
    (radii.getD ij.1 0 + radii.getD ij.2 0) ^ 2)

/-- The candidate pairs that actually overlap (narrow phase filter). -/
def collidingPairs (radii : List ℚ) (ps : List Vec2) (cands : List (ℕ × ℕ)) :
    List (ℕ × ℕ) :=
  cands.filter (overlapB radii ps)

/-- Modelled from the spec: one fixed step of the Collision and Integration
Engine — integrate motion and wall response (`advance`), generate candidate
pairs from the advanced positions with the chosen strategy, keep the actually
overlapping ones, and fold the pairwise collision response over them in
ascending pair order. -/
def simStep (gen : List Vec2 → List (ℕ × ℕ)) (advance : PState → PState)
    (resolve : PState → ℕ × ℕ → PState) (radii : List ℚ) (st : PState) : PState :=
  (collidingPairs radii (advance st).positions (gen (advance st).positions)).foldl
    resolve (advance st)

/-- Iterating the engine for a number of fixed steps. -/
def runSim (gen : List Vec2 → List (ℕ × ℕ)) (advance : PState → PState)
    (resolve : PState → ℕ × ℕ → PState) (radii : List ℚ) : ℕ → PState → PState
  | 0, st => st
  | n + 1, st => runSim gen advance resolve radii n (simStep gen advance resolve radii st)

/-- Concrete two-particle state for witnesses. -/
def stateW : PState := ⟨[⟨0, 0⟩, ⟨5, 5⟩], [⟨0, 0⟩, ⟨0, 0⟩]⟩

theorem addParticleGrid_accepted (sim : SimulationSystem) (rows cols : ℤ)
    (bottomLeft topRight spacing : Vec2) (mass : ℚ)
    (h : GridAccepted sim rows cols bottomLeft topRight spacing) :
    AddParticleGrid sim rows cols bottomLeft topRight spacing mass =
      { sim with particles := sim.particles ++ gridParticles sim rows cols bottomLeft topRight spacing mass } := by
  obtain ⟨⟨h1, h2⟩, ⟨h3, h4⟩, ⟨h5, h6⟩, h7, h8⟩ := h
  unfold AddParticleGrid
  rw [if_neg, if_neg, if_neg, if_neg, if_neg]
  · exact h8
  · exact not_lt.mpr h7
  · push_neg
    exact ⟨h5, h6⟩
  · push_neg
    exact ⟨h3, h4⟩
  · push_neg
    exact ⟨h1, h2⟩

theorem addParticleGrid_rejected (sim : SimulationSystem) (rows cols : ℤ)
    (bottomLeft topRight spacing : Vec2) (mass : ℚ)
    (h : ¬ GridAccepted sim rows cols bottomLeft topRight spacing) :
    AddParticleGrid sim rows cols bottomLeft topRight spacing mass = sim := by
  unfold AddParticleGrid
  by_cases c1 : rows ≤ 0 ∨ cols ≤ 0
  · rw [if_pos c1]
  rw [if_neg c1]
  by_cases c2 : (gridTopRight sim topRight).x ≤ (gridBottomLeft sim bottomLeft).x ∨
      (gridTopRight sim topRight).y ≤ (gridBottomLeft sim bottomLeft).y
  · rw [if_pos c2]
  rw [if_neg c2]
  by_cases c3 : (availableSpace sim bottomLeft topRight).x < requiredWidth sim cols spacing ∨
      (availableSpace sim bottomLeft topRight).y < requiredHeight sim rows spacing
  · rw [if_pos c3]
  rw [if_neg c3]
  by_cases c4 : ((availableSpace sim bottomLeft topRight).y / (2 * sim.particleRadius)) *
      ((availableSpace sim bottomLeft topRight).x / (2 * sim.particleRadius)) <
      ((rows * cols : ℤ) : ℚ)
  · rw [if_pos c4]
  rw [if_neg c4]
  by_cases c5 : (1 < cols ∧ finalSpacingX sim cols bottomLeft topRight spacing < 2 * sim.particleRadius) ∨
      (1 < rows ∧ finalSpacingY sim rows bottomLeft topRight spacing < 2 * sim.particleRadius)
  · rw [if_pos c5]
  rw [if_neg c5]
  exfalso
  push_neg at c1 c2 c3
  exact h ⟨⟨c1.1, c1.2⟩, ⟨c2.1, c2.2⟩, ⟨c3.1, c3.2⟩, not_lt.mp c4, c5⟩

theorem gridParticles_length (sim : SimulationSystem) (rows cols : ℤ)
    (bottomLeft topRight spacing : Vec2) (mass : ℚ) :
    (gridParticles sim rows cols bottomLeft topRight spacing mass).length =
      rows.toNat * cols.toNat := by
  simp only [gridParticles, List.length_flatMap, Function.comp_def, List.length_map]
  rw [List.map_const', List.sum_replicate, List.length_range, smul_eq_mul, List.length_range]

/-- C1: every call to `AddParticleGrid` either appends exactly `rows × cols`
particles (all validation passed) or leaves the particle store completely
unchanged; in particular any request with non-positive `rows` or `cols` adds
nothing.  No call adds a partial grid. -/
theorem addParticleGrid_all_or_nothing (sim : SimulationSystem) (rows cols : ℤ)
    (bottomLeft topRight spacing : Vec2) (mass : ℚ) :
    ((rows ≤ 0 ∨ cols ≤ 0) →
      AddParticleGrid sim rows cols bottomLeft topRight spacing mass = sim) ∧
    (AddParticleGrid sim rows cols bottomLeft topRight spacing mass = sim ∨
      ∃ added : List Particle,
        (AddParticleGrid sim rows cols bottomLeft topRight spacing mass).particles =
            sim.particles ++ added ∧
          added.length = rows.toNat * cols.toNat) := by
  constructor
  · intro h
    unfold AddParticleGrid
    rw [if_pos h]
  · by_cases hacc : GridAccepted sim rows cols bottomLeft topRight spacing
    · right
      refine ⟨gridParticles sim rows cols bottomLeft topRight spacing mass, ?_, ?_⟩
      · rw [addParticleGrid_accepted sim rows cols bottomLeft topRight spacing mass hacc]
      · exact gridParticles_length sim rows cols bottomLeft topRight spacing mass
    · left
      exact addParticleGrid_rejected sim rows cols bottomLeft topRight spacing mass hacc

/-- C1 witness: the dichotomy instantiated at a concrete request. -/
theorem addParticleGrid_all_or_nothing_witness :
    (((2 : ℤ) ≤ 0 ∨ (3 : ℤ) ≤ 0) →
      AddParticleGrid simA 2 3 ⟨0, 0⟩ ⟨100, 100⟩ ⟨0, 0⟩ 1 = simA) ∧
    (AddParticleGrid simA 2 3 ⟨0, 0⟩ ⟨100, 100⟩ ⟨0, 0⟩ 1 = simA ∨
      ∃ added : List Particle,
        (AddParticleGrid simA 2 3 ⟨0, 0⟩ ⟨100, 100⟩ ⟨0, 0⟩ 1).particles =
            simA.particles ++ added ∧
          added.length = (2 : ℤ).toNat * (3 : ℤ).toNat) :=
  addParticleGrid_all_or_nothing simA 2 3 ⟨0, 0⟩ ⟨100, 100⟩ ⟨0, 0⟩ 1

/-- C2 counterexample: `AddParticle` performs no bounds check.  The position
(200, 200) lies strictly outside the usable bounds of `simA` (even outside the
domain itself), yet a particle is appended — refuting the claim that no
particle is added for an out-of-bounds position. -/
theorem addParticle_no_bounds_check_counterexample :
    simA.topRight.x - simA.particleRadius < (200 : ℚ) ∧
    simA.topRight.y - simA.particleRadius < (200 : ℚ) ∧
    (AddParticle simA ⟨200, 200⟩ 1).particles = [⟨⟨200, 200⟩, 1⟩] := by
  refine ⟨by norm_num [simA], by norm_num [simA], ?_⟩
  simp [AddParticle, simA]

/-- C2 amended: `AddParticle(position, mass)` always appends exactly one
particle carrying the given position and mass, for every position — inside or
outside the usable bounds; it performs no validation at all. -/
theorem addParticle_always_appends (sim : SimulationSystem) (position : Vec2) (mass : ℚ) :
    (AddParticle sim position mass).particles = sim.particles ++ [⟨position, mass⟩] :=
  rfl

/-- C3: the placement rectangle is shrunk to the domain bounds inset by one
particle radius per side; the required footprint equals
`cols·(2·radius) + (cols − 1)·spacing.x` horizontally (and symmetrically for
rows); and whenever the footprint exceeds the shrunk rectangle's extent along
either axis the request is rejected with the system unchanged. -/
theorem addParticleGrid_footprint_check (sim : SimulationSystem) (rows cols : ℤ)
    (bottomLeft topRight spacing : Vec2) (mass : ℚ) :
    gridBottomLeft sim bottomLeft =
      ⟨max bottomLeft.x (sim.bottomLeft.x + sim.particleRadius),
       max bottomLeft.y (sim.bottomLeft.y + sim.particleRadius)⟩ ∧
    gridTopRight sim topRight =
      ⟨min topRight.x (sim.topRight.x - sim.particleRadius),
       min topRight.y (sim.topRight.y - sim.particleRadius)⟩ ∧
    (1 ≤ cols → requiredWidth sim cols spacing =
      (cols : ℚ) * (2 * sim.particleRadius) + ((cols : ℚ) - 1) * spacing.x) ∧
    (1 ≤ rows → requiredHeight sim rows spacing =
      (rows : ℚ) * (2 * sim.particleRadius) + ((rows : ℚ) - 1) * spacing.y) ∧
    ((availableSpace sim bottomLeft topRight).x < requiredWidth sim cols spacing ∨
        (availableSpace sim bottomLeft topRight).y < requiredHeight sim rows spacing →
      AddParticleGrid sim rows cols bottomLeft topRight spacing mass = sim) := by
  refine ⟨rfl, rfl, ?_, ?_, ?_⟩
  · intro h
    unfold requiredWidth
    rcases lt_or_eq_of_le h with h1 | h1
    · rw [if_pos h1]
    · rw [if_neg (by omega)]
      rw [← h1]
      push_cast
      ring
  · intro h
    unfold requiredHeight
    rcases lt_or_eq_of_le h with h1 | h1
    · rw [if_pos h1]
    · rw [if_neg (by omega)]
      rw [← h1]
      push_cast
      ring
  · intro hfp
    unfold AddParticleGrid
    by_cases c1 : rows ≤ 0 ∨ cols ≤ 0
    · rw [if_pos c1]
    rw [if_neg c1]
    by_cases c2 : (gridTopRight sim topRight).x ≤ (gridBottomLeft sim bottomLeft).x ∨
        (gridTopRight sim topRight).y ≤ (gridBottomLeft sim bottomLeft).y
    · rw [if_pos c2]
    rw [if_neg c2, if_pos hfp]

/-- C3 witness: a 100×100 request with radius 1 in a 100×100 world is rejected
because the footprint (200 units) exceeds the 98 available units. -/
theorem addParticleGrid_footprint_check_witness :
    ((availableSpace simA ⟨0, 0⟩ ⟨100, 100⟩).x < requiredWidth simA 100 ⟨0, 0⟩ ∨
      (availableSpace simA ⟨0, 0⟩ ⟨100, 100⟩).y < requiredHeight simA 100 ⟨0, 0⟩) ∧
    AddParticleGrid simA 100 100 ⟨0, 0⟩ ⟨100, 100⟩ ⟨0, 0⟩ 1 = simA := by
  have h : (availableSpace simA ⟨0, 0⟩ ⟨100, 100⟩).x < requiredWidth simA 100 ⟨0, 0⟩ ∨
      (availableSpace simA ⟨0, 0⟩ ⟨100, 100⟩).y < requiredHeight simA 100 ⟨0, 0⟩ := by
    left
    norm_num [availableSpace, requiredWidth, gridBottomLeft, gridTopRight,
      Vec2.max2, Vec2.min2, simA]
  exact ⟨h, (addParticleGrid_footprint_check simA 100 100 ⟨0, 0⟩ ⟨100, 100⟩ ⟨0, 0⟩ 1).2.2.2.2 h⟩

theorem two_r_le_finalSpacingX (sim : SimulationSystem) (rows cols : ℤ)
    (bottomLeft topRight spacing : Vec2)
    (hacc : GridAccepted sim rows cols bottomLeft topRight spacing) (hc : 1 < cols) :
    2 * sim.particleRadius ≤ finalSpacingX sim cols bottomLeft topRight spacing := by
  obtain ⟨_, _, _, _, h8⟩ := hacc
  push_neg at h8
  exact h8.1 hc

theorem two_r_le_finalSpacingY (sim : SimulationSystem) (rows cols : ℤ)
    (bottomLeft topRight spacing : Vec2)
    (hacc : GridAccepted sim rows cols bottomLeft topRight spacing) (hrw : 1 < rows) :
    2 * sim.particleRadius ≤ finalSpacingY sim rows bottomLeft topRight spacing := by
  obtain ⟨_, _, _, _, h8⟩ := hacc
  push_neg at h8
  exact h8.2 hrw

theorem finalSpacingX_nonneg (sim : SimulationSystem) (rows cols : ℤ)
    (bottomLeft topRight spacing : Vec2)
    (hacc : GridAccepted sim rows cols bottomLeft topRight spacing)
    (hr : 0 ≤ sim.particleRadius) :
    0 ≤ finalSpacingX sim cols bottomLeft topRight spacing := by
  by_cases hc : cols = 1
  · unfold finalSpacingX
    rw [if_pos hc]
  · have hc1 : 1 < cols := by
      have := hacc.1.2
      omega
    have := two_r_le_finalSpacingX sim rows cols bottomLeft topRight spacing hacc hc1
    linarith

theorem finalSpacingY_nonneg (sim : SimulationSystem) (rows cols : ℤ)
    (bottomLeft topRight spacing : Vec2)
    (hacc : GridAccepted sim rows cols bottomLeft topRight spacing)
    (hr : 0 ≤ sim.particleRadius) :
    0 ≤ finalSpacingY sim rows bottomLeft topRight spacing := by
  by_cases hc : rows = 1
  · unfold finalSpacingY
    rw [if_pos hc]
  · have hc1 : 1 < rows := by
      have := hacc.1.1
      omega
    have := two_r_le_finalSpacingY sim rows cols bottomLeft topRight spacing hacc hc1
    linarith

theorem gridSizeX_le_avail (sim : SimulationSystem) (rows cols : ℤ)
    (bottomLeft topRight spacing : Vec2)
    (hacc : GridAccepted sim rows cols bottomLeft topRight spacing)
    (hr : 0 ≤ sim.particleRadius) :
    gridSizeX sim cols bottomLeft topRight spacing ≤
      (availableSpace sim bottomLeft topRight).x := by
  obtain ⟨⟨hrows, hcols⟩, ⟨hbx, hby⟩, ⟨hfx, hfy⟩, hcap, hsp⟩ := hacc
  have ha : (availableSpace sim bottomLeft topRight).x =
      (gridTopRight sim topRight).x - (gridBottomLeft sim bottomLeft).x := rfl
  by_cases hc : cols = 1
  · unfold gridSizeX finalSpacingX
    rw [if_pos hc, hc]
    norm_num
    linarith
  · have hc1 : 1 < cols := by omega
    have hcq : (1 : ℚ) < (cols : ℚ) := by exact_mod_cast hc1
    unfold gridSizeX finalSpacingX
    rw [if_neg hc]
    by_cases hsx : 0 < spacing.x
    · rw [if_pos hsx]
      unfold requiredWidth at hfx
      rw [if_pos hc1] at hfx
      have hcr : 0 ≤ (cols : ℚ) * (2 * sim.particleRadius) := by
        have : (0 : ℚ) ≤ (cols : ℚ) := by positivity
        positivity
      linarith [mul_comm spacing.x ((cols : ℚ) - 1)]
    · rw [if_neg hsx]
      rw [div_mul_cancel₀ _ (by linarith : (cols : ℚ) - 1 ≠ 0)]

theorem gridSizeY_le_avail (sim : SimulationSystem) (rows cols : ℤ)
    (bottomLeft topRight spacing : Vec2)
    (hacc : GridAccepted sim rows cols bottomLeft topRight spacing)
    (hr : 0 ≤ sim.particleRadius) :
    gridSizeY sim rows bottomLeft topRight spacing ≤
      (availableSpace sim bottomLeft topRight).y := by
  obtain ⟨⟨hrows, hcols⟩, ⟨hbx, hby⟩, ⟨hfx, hfy⟩, hcap, hsp⟩ := hacc
  have ha : (availableSpace sim bottomLeft topRight).y =
      (gridTopRight sim topRight).y - (gridBottomLeft sim bottomLeft).y := rfl
  by_cases hc : rows = 1
  · unfold gridSizeY finalSpacingY
    rw [if_pos hc, hc]
    norm_num
    linarith
  · have hc1 : 1 < rows := by omega
    have hcq : (1 : ℚ) < (rows : ℚ) := by exact_mod_cast hc1
    unfold gridSizeY finalSpacingY
    rw [if_neg hc]
    by_cases hsy : 0 < spacing.y
    · rw [if_pos hsy]
      unfold requiredHeight at hfy
      rw [if_pos hc1] at hfy
      have hcr : 0 ≤ (rows : ℚ) * (2 * sim.particleRadius) := by
        have : (0 : ℚ) ≤ (rows : ℚ) := by positivity
        positivity
      linarith [mul_comm spacing.y ((rows : ℚ) - 1)]
    · rw [if_neg hsy]
      rw [div_mul_cancel₀ _ (by linarith : (rows : ℚ) - 1 ≠ 0)]

theorem startPosX_bounds (sim : SimulationSystem) (cols : ℤ)
    (bottomLeft topRight spacing : Vec2)
    (hsize : gridSizeX sim cols bottomLeft topRight spacing ≤
      (availableSpace sim bottomLeft topRight).x) :
    (gridBottomLeft sim bottomLeft).x ≤ startPosX sim cols bottomLeft topRight spacing ∧
    startPosX sim cols bottomLeft topRight spacing +
        gridSizeX sim cols bottomLeft topRight spacing ≤ (gridTopRight sim topRight).x := by
  have ha : (availableSpace sim bottomLeft topRight).x =
      (gridTopRight sim topRight).x - (gridBottomLeft sim bottomLeft).x := rfl
  unfold startPosX
  split
  · constructor
    · rename_i h
      linarith
    · rename_i h
      linarith
  · constructor
    · linarith
    · rename_i h
      push_neg at h
      linarith

theorem startPosY_bounds (sim : SimulationSystem) (rows : ℤ)
    (bottomLeft topRight spacing : Vec2)
    (hsize : gridSizeY sim rows bottomLeft topRight spacing ≤
      (availableSpace sim bottomLeft topRight).y) :
    (gridBottomLeft sim bottomLeft).y ≤ startPosY sim rows bottomLeft topRight spacing ∧
    startPosY sim rows bottomLeft topRight spacing +
        gridSizeY sim rows bottomLeft topRight spacing ≤ (gridTopRight sim topRight).y := by
  have ha : (availableSpace sim bottomLeft topRight).y =
      (gridTopRight sim topRight).y - (gridBottomLeft sim bottomLeft).y := rfl
  unfold startPosY
  split
  · constructor
    · rename_i h
      linarith
    · rename_i h
      linarith
  · constructor
    · linarith
    · rename_i h
      push_neg at h
      linarith

theorem gridParticlePos_x_bounds (sim : SimulationSystem) (rows cols : ℤ)
    (bottomLeft topRight spacing : Vec2)
    (hacc : GridAccepted sim rows cols bottomLeft topRight spacing)
    (hr : 0 ≤ sim.particleRadius) (row col : ℕ) (hcol : col < cols.toNat) :
    (gridBottomLeft sim bottomLeft).x ≤
        (gridParticlePos sim rows cols bottomLeft topRight spacing row col).x ∧
    (gridParticlePos sim rows cols bottomLeft topRight spacing row col).x ≤
      (gridTopRight sim topRight).x := by
  have hfs := finalSpacingX_nonneg sim rows cols bottomLeft topRight spacing hacc hr
  have hsz := gridSizeX_le_avail sim rows cols bottomLeft topRight spacing hacc hr
  have hsp := startPosX_bounds sim cols bottomLeft topRight spacing hsz
  have hcq : (col : ℚ) ≤ (cols : ℚ) - 1 := by
    have : (col : ℤ) ≤ cols - 1 := by omega
    exact_mod_cast this
  have h1 : 0 ≤ (col : ℚ) * finalSpacingX sim cols bottomLeft topRight spacing := by
    have : (0 : ℚ) ≤ (col : ℚ) := by positivity
    exact mul_nonneg this hfs
  have h2 : (col : ℚ) * finalSpacingX sim cols bottomLeft topRight spacing ≤
      gridSizeX sim cols bottomLeft topRight spacing := by
    unfold gridSizeX
    rw [mul_comm]
    exact mul_le_mul_of_nonneg_left hcq hfs
  unfold gridParticlePos
  constructor
  · simp only
    linarith [hsp.1]
  · simp only
    linarith [hsp.2]

theorem gridParticlePos_y_bounds (sim : SimulationSystem) (rows cols : ℤ)
    (bottomLeft topRight spacing : Vec2)
    (hacc : GridAccepted sim rows cols bottomLeft topRight spacing)
    (hr : 0 ≤ sim.particleRadius) (row col : ℕ) (hrow : row < rows.toNat) :
    (gridBottomLeft sim bottomLeft).y ≤
        (gridParticlePos sim rows cols bottomLeft topRight spacing row col).y ∧
    (gridParticlePos sim rows cols bottomLeft topRight spacing row col).y ≤
      (gridTopRight sim topRight).y := by
  have hfs := finalSpacingY_nonneg sim rows cols bottomLeft topRight spacing hacc hr
  have hsz := gridSizeY_le_avail sim rows cols bottomLeft topRight spacing hacc hr
  have hsp := startPosY_bounds sim rows bottomLeft topRight spacing hsz
  have hcq : (row : ℚ) ≤ (rows : ℚ) - 1 := by
    have : (row : ℤ) ≤ rows - 1 := by omega
    exact_mod_cast this
  have h1 : 0 ≤ (row : ℚ) * finalSpacingY sim rows bottomLeft topRight spacing := by
    have : (0 : ℚ) ≤ (row : ℚ) := by positivity
    exact mul_nonneg this hfs
  have h2 : (row : ℚ) * finalSpacingY sim rows bottomLeft topRight spacing ≤
      gridSizeY sim rows bottomLeft topRight spacing := by
    unfold gridSizeY
    rw [mul_comm]
    exact mul_le_mul_of_nonneg_left hcq hfs
  unfold gridParticlePos
  constructor
  · simp only
    linarith [hsp.1]
  · simp only
    linarith [hsp.2]

/-- C9: every particle appended by a successful `AddParticleGrid` call has its
center inside the shrunk placement rectangle, hence within the domain bounds
inset by one particle radius on every side (componentwise
`bottomLeft + radius ≤ center ≤ topRight − radius`). -/
theorem addParticleGrid_particles_in_bounds (sim : SimulationSystem) (rows cols : ℤ)
    (bottomLeft topRight spacing : Vec2) (mass : ℚ)
    (hacc : GridAccepted sim rows cols bottomLeft topRight spacing)
    (hr : 0 ≤ sim.particleRadius) :
    ∀ q ∈ (AddParticleGrid sim rows cols bottomLeft topRight spacing mass).particles,
      q ∈ sim.particles ∨
      ((gridBottomLeft sim bottomLeft).x ≤ q.position.x ∧
       q.position.x ≤ (gridTopRight sim topRight).x ∧
       (gridBottomLeft sim bottomLeft).y ≤ q.position.y ∧
       q.position.y ≤ (gridTopRight sim topRight).y ∧
       sim.bottomLeft.x + sim.particleRadius ≤ q.position.x ∧
       q.position.x ≤ sim.topRight.x - sim.particleRadius ∧
       sim.bottomLeft.y + sim.particleRadius ≤ q.position.y ∧
       q.position.y ≤ sim.topRight.y - sim.particleRadius) := by
  intro q hq
  rw [addParticleGrid_accepted sim rows cols bottomLeft topRight spacing mass hacc] at hq
  simp only [List.mem_append] at hq
  rcases hq with hq | hq
  · left
    exact hq
  · right
    simp only [gridParticles, List.mem_flatMap, List.mem_map, List.mem_range] at hq
    obtain ⟨row, hrow, col, hcol, rfl⟩ := hq
    have hx := gridParticlePos_x_bounds sim rows cols bottomLeft topRight spacing hacc hr row col hcol
    have hy := gridParticlePos_y_bounds sim rows cols bottomLeft topRight spacing hacc hr row col hrow
    have hbl_x : sim.bottomLeft.x + sim.particleRadius ≤ (gridBottomLeft sim bottomLeft).x :=
      le_max_right _ _
    have hbl_y : sim.bottomLeft.y + sim.particleRadius ≤ (gridBottomLeft sim bottomLeft).y :=
      le_max_right _ _
    have htr_x : (gridTopRight sim topRight).x ≤ sim.topRight.x - sim.particleRadius :=
      min_le_right _ _
    have htr_y : (gridTopRight sim topRight).y ≤ sim.topRight.y - sim.particleRadius :=
      min_le_right _ _
    exact ⟨hx.1, hx.2, hy.1, hy.2, le_trans hbl_x hx.1, le_trans hx.2 htr_x,
      le_trans hbl_y hy.1, le_trans hy.2 htr_y⟩

/-- Acceptance of the concrete 2×2 zero-spacing request on `simA`. -/
theorem gridAccepted_simA22 : GridAccepted simA 2 2 ⟨0, 0⟩ ⟨100, 100⟩ ⟨0, 0⟩ := by
  simp only [GridAccepted, availableSpace, requiredWidth, requiredHeight,
    finalSpacingX, finalSpacingY, gridBottomLeft, gridTopRight, Vec2.max2, Vec2.min2, simA]
  norm_num

/-- Acceptance of the concrete 1×2 request with spacing (10, 0) on `simA`. -/
theorem gridAccepted_simA12 : GridAccepted simA 1 2 ⟨0, 0⟩ ⟨100, 100⟩ ⟨10, 0⟩ := by
  simp only [GridAccepted, availableSpace, requiredWidth, requiredHeight,
    finalSpacingX, finalSpacingY, gridBottomLeft, gridTopRight, Vec2.max2, Vec2.min2, simA]
  norm_num

/-- C9 witness: the in-bounds invariant instantiated at the accepted 2×2
request on `simA`. -/
theorem addParticleGrid_particles_in_bounds_witness :
    GridAccepted simA 2 2 ⟨0, 0⟩ ⟨100, 100⟩ ⟨0, 0⟩ ∧ (0 : ℚ) ≤ simA.particleRadius ∧
    ∀ q ∈ (AddParticleGrid simA 2 2 ⟨0, 0⟩ ⟨100, 100⟩ ⟨0, 0⟩ 1).particles,
      q ∈ simA.particles ∨
      ((gridBottomLeft simA ⟨0, 0⟩).x ≤ q.position.x ∧
       q.position.x ≤ (gridTopRight simA ⟨100, 100⟩).x ∧
       (gridBottomLeft simA ⟨0, 0⟩).y ≤ q.position.y ∧
       q.position.y ≤ (gridTopRight simA ⟨100, 100⟩).y ∧
       simA.bottomLeft.x + simA.particleRadius ≤ q.position.x ∧
       q.position.x ≤ simA.topRight.x - simA.particleRadius ∧
       simA.bottomLeft.y + simA.particleRadius ≤ q.position.y ∧
       q.position.y ≤ simA.topRight.y - simA.particleRadius) :=
  ⟨gridAccepted_simA22, by norm_num [simA],
    addParticleGrid_particles_in_bounds simA 2 2 ⟨0, 0⟩ ⟨100, 100⟩ ⟨0, 0⟩ 1
      gridAccepted_simA22 (by norm_num [simA])⟩

/-- C4: for an accepted request — on an axis with non-positive requested
spacing and more than one column/row, centers are spread evenly: the final
spacing is exactly `availableSpace / (count − 1)` and consecutive centers
differ by it; an axis with a single column/row is centered in the available
space; and whenever the grid block is smaller than the available space along
an axis, its margins on that axis are equal (the block is centered). -/
theorem addParticleGrid_distribution (sim : SimulationSystem) (rows cols : ℤ)
    (bottomLeft topRight spacing : Vec2)
    (hacc : GridAccepted sim rows cols bottomLeft topRight spacing) :
    (spacing.x ≤ 0 → 1 < cols →
      finalSpacingX sim cols bottomLeft topRight spacing =
          (availableSpace sim bottomLeft topRight).x / ((cols : ℚ) - 1) ∧
      ∀ row col : ℕ,
        (gridParticlePos sim rows cols bottomLeft topRight spacing row (col + 1)).x -
            (gridParticlePos sim rows cols bottomLeft topRight spacing row col).x =
          (availableSpace sim bottomLeft topRight).x / ((cols : ℚ) - 1)) ∧
    (spacing.y ≤ 0 → 1 < rows →
      finalSpacingY sim rows bottomLeft topRight spacing =
          (availableSpace sim bottomLeft topRight).y / ((rows : ℚ) - 1) ∧
      ∀ row col : ℕ,
        (gridParticlePos sim rows cols bottomLeft topRight spacing (row + 1) col).y -
            (gridParticlePos sim rows cols bottomLeft topRight spacing row col).y =
          (availableSpace sim bottomLeft topRight).y / ((rows : ℚ) - 1)) ∧
    (cols = 1 → ∀ row col : ℕ,
      (gridParticlePos sim rows cols bottomLeft topRight spacing row col).x =
        ((gridBottomLeft sim bottomLeft).x + (gridTopRight sim topRight).x) / 2) ∧
    (rows = 1 → ∀ row col : ℕ,
      (gridParticlePos sim rows cols bottomLeft topRight spacing row col).y =
        ((gridBottomLeft sim bottomLeft).y + (gridTopRight sim topRight).y) / 2) ∧
    (gridSizeX sim cols bottomLeft topRight spacing < (availableSpace sim bottomLeft topRight).x →
      startPosX sim cols bottomLeft topRight spacing - (gridBottomLeft sim bottomLeft).x =
        (gridTopRight sim topRight).x - (startPosX sim cols bottomLeft topRight spacing +
          gridSizeX sim cols bottomLeft topRight spacing)) ∧
    (gridSizeY sim rows bottomLeft topRight spacing < (availableSpace sim bottomLeft topRight).y →
      startPosY sim rows bottomLeft topRight spacing - (gridBottomLeft sim bottomLeft).y =
        (gridTopRight sim topRight).y - (startPosY sim rows bottomLeft topRight spacing +
          gridSizeY sim rows bottomLeft topRight spacing)) := by
  have hax : (availableSpace sim bottomLeft topRight).x =
      (gridTopRight sim topRight).x - (gridBottomLeft sim bottomLeft).x := rfl
  have hay : (availableSpace sim bottomLeft topRight).y =
      (gridTopRight sim topRight).y - (gridBottomLeft sim bottomLeft).y := rfl
  refine ⟨?_, ?_, ?_, ?_, ?_, ?_⟩
  · intro hs hc
    have hfs : finalSpacingX sim cols bottomLeft topRight spacing =
        (availableSpace sim bottomLeft topRight).x / ((cols : ℚ) - 1) := by
      unfold finalSpacingX
      rw [if_neg (by omega), if_neg (not_lt.mpr hs)]
    refine ⟨hfs, fun row col => ?_⟩
    unfold gridParticlePos
    simp only
    rw [← hfs]
    push_cast
    ring
  · intro hs hrw
    have hfs : finalSpacingY sim rows bottomLeft topRight spacing =
        (availableSpace sim bottomLeft topRight).y / ((rows : ℚ) - 1) := by
      unfold finalSpacingY
      rw [if_neg (by omega), if_neg (not_lt.mpr hs)]
    refine ⟨hfs, fun row col => ?_⟩
    unfold gridParticlePos
    simp only
    rw [← hfs]
    push_cast
    ring
  · intro hc row col
    have hfs : finalSpacingX sim cols bottomLeft topRight spacing = 0 := by
      unfold finalSpacingX
      rw [if_pos hc]
    have hgs : gridSizeX sim cols bottomLeft topRight spacing = 0 := by
      unfold gridSizeX
      rw [hfs, zero_mul]
    have hpos : 0 < (availableSpace sim bottomLeft topRight).x := by
      have := hacc.2.1.1
      linarith
    unfold gridParticlePos
    simp only
    rw [hfs, mul_zero, add_zero]
    unfold startPosX
    rw [hgs, if_pos hpos]
    linarith
  · intro hc row col
    have hfs : finalSpacingY sim rows bottomLeft topRight spacing = 0 := by
      unfold finalSpacingY
      rw [if_pos hc]
    have hgs : gridSizeY sim rows bottomLeft topRight spacing = 0 := by
      unfold gridSizeY
      rw [hfs, zero_mul]
    have hpos : 0 < (availableSpace sim bottomLeft topRight).y := by
      have := hacc.2.1.2
      linarith
    unfold gridParticlePos
    simp only
    rw [hfs, mul_zero, add_zero]
    unfold startPosY
    rw [hgs, if_pos hpos]
    linarith
  · intro h
    unfold startPosX
    rw [if_pos h]
    linarith
  · intro h
    unfold startPosY
    rw [if_pos h]
    linarith

/-- C4 witness: on the accepted 2×2 zero-spacing request on `simA` the
horizontal distance between adjacent columns is the even share of the
available space. -/
theorem addParticleGrid_distribution_witness :
    GridAccepted simA 2 2 ⟨0, 0⟩ ⟨100, 100⟩ ⟨0, 0⟩ ∧
    (gridParticlePos simA 2 2 ⟨0, 0⟩ ⟨100, 100⟩ ⟨0, 0⟩ 0 1).x -
        (gridParticlePos simA 2 2 ⟨0, 0⟩ ⟨100, 100⟩ ⟨0, 0⟩ 0 0).x =
      (availableSpace simA ⟨0, 0⟩ ⟨100, 100⟩).x / (((2 : ℤ) : ℚ) - 1) :=
  ⟨gridAccepted_simA22,
    ((addParticleGrid_distribution simA 2 2 ⟨0, 0⟩ ⟨100, 100⟩ ⟨0, 0⟩
      gridAccepted_simA22).1 (by norm_num) (by norm_num)).2 0 0⟩

theorem one_le_sq_sub (a b : ℕ) (h : a ≠ b) : 1 ≤ ((a : ℚ) - b) ^ 2 := by
  have h1 : ((a : ℤ) - b) ≠ 0 := by omega
  have h2 : 1 ≤ ((a : ℤ) - b) ^ 2 := by
    rcases lt_or_gt_of_ne h1 with h | h
    · nlinarith
    · nlinarith
  have h3 : (1 : ℚ) ≤ (((a : ℤ) - b : ℤ) : ℚ) ^ 2 := by exact_mod_cast h2
  push_cast at h3
  exact h3

/-- C5 counterexample: the acceptance test only constrains the spacing on an
axis with more than one row/column.  The accepted 1×2 request on `simA` has a
would-be y spacing of 0, below the particle diameter 2, yet two particles are
added instead of the request being rejected. -/
theorem addParticleGrid_spacing_axis_counterexample :
    finalSpacingY simA 1 ⟨0, 0⟩ ⟨100, 100⟩ ⟨10, 0⟩ < 2 * simA.particleRadius ∧
    (AddParticleGrid simA 1 2 ⟨0, 0⟩ ⟨100, 100⟩ ⟨10, 0⟩ 1).particles.length = 2 := by
  constructor
  · norm_num [finalSpacingY, simA]
  · rw [addParticleGrid_accepted simA 1 2 ⟨0, 0⟩ ⟨100, 100⟩ ⟨10, 0⟩ 1 gridAccepted_simA12]
    simp [simA, gridParticles_length]

/-- C5 amended: a request whose would-be spacing is below one particle
diameter on an axis with more than one column (resp. row) is rejected with
the store unchanged; consequently any two distinct particles of an accepted
grid are at squared center distance at least the squared diameter — no
initially overlapping particles. -/
theorem addParticleGrid_min_spacing (sim : SimulationSystem) (rows cols : ℤ)
    (bottomLeft topRight spacing : Vec2) (mass : ℚ) :
    ((1 < cols ∧ finalSpacingX sim cols bottomLeft topRight spacing < 2 * sim.particleRadius) ∨
        (1 < rows ∧ finalSpacingY sim rows bottomLeft topRight spacing < 2 * sim.particleRadius) →
      AddParticleGrid sim rows cols bottomLeft topRight spacing mass = sim) ∧
    (GridAccepted sim rows cols bottomLeft topRight spacing → 0 ≤ sim.particleRadius →
      ∀ r1 c1 r2 c2 : ℕ, r1 < rows.toNat → c1 < cols.toNat → r2 < rows.toNat →
        c2 < cols.toNat → (r1, c1) ≠ (r2, c2) →
        (2 * sim.particleRadius) ^ 2 ≤
          ((gridParticlePos sim rows cols bottomLeft topRight spacing r1 c1).x -
              (gridParticlePos sim rows cols bottomLeft topRight spacing r2 c2).x) ^ 2 +
          ((gridParticlePos sim rows cols bottomLeft topRight spacing r1 c1).y -
              (gridParticlePos sim rows cols bottomLeft topRight spacing r2 c2).y) ^ 2) := by
  constructor
  · intro h
    unfold AddParticleGrid
    by_cases c1 : rows ≤ 0 ∨ cols ≤ 0
    · rw [if_pos c1]
    rw [if_neg c1]
    by_cases c2 : (gridTopRight sim topRight).x ≤ (gridBottomLeft sim bottomLeft).x ∨
        (gridTopRight sim topRight).y ≤ (gridBottomLeft sim bottomLeft).y
    · rw [if_pos c2]
    rw [if_neg c2]
    by_cases c3 : (availableSpace sim bottomLeft topRight).x < requiredWidth sim cols spacing ∨
        (availableSpace sim bottomLeft topRight).y < requiredHeight sim rows spacing
    · rw [if_pos c3]
    rw [if_neg c3]
    by_cases c4 : ((availableSpace sim bottomLeft topRight).y / (2 * sim.particleRadius)) *
        ((availableSpace sim bottomLeft topRight).x / (2 * sim.particleRadius)) <
        ((rows * cols : ℤ) : ℚ)
    · rw [if_pos c4]
    rw [if_neg c4, if_pos h]
  · intro hacc hr r1 c1 r2 c2 h1 h2 h3 h4 hne
    have hdx : (gridParticlePos sim rows cols bottomLeft topRight spacing r1 c1).x -
        (gridParticlePos sim rows cols bottomLeft topRight spacing r2 c2).x =
        ((c1 : ℚ) - c2) * finalSpacingX sim cols bottomLeft topRight spacing := by
      unfold gridParticlePos
      simp only
      ring
    have hdy : (gridParticlePos sim rows cols bottomLeft topRight spacing r1 c1).y -
        (gridParticlePos sim rows cols bottomLeft topRight spacing r2 c2).y =
        ((r1 : ℚ) - r2) * finalSpacingY sim rows bottomLeft topRight spacing := by
      unfold gridParticlePos
      simp only
      ring
    have h2r : 0 ≤ 2 * sim.particleRadius := by linarith
    rcases eq_or_ne c1 c2 with hc | hc
    · have hrne : r1 ≠ r2 := by
        intro h
        exact hne (by rw [h, hc])
      have hrows : 1 < rows := by omega
      have hfyb := two_r_le_finalSpacingY sim rows cols bottomLeft topRight spacing hacc hrows
      have hd := one_le_sq_sub r1 r2 hrne
      rw [hdx, hdy]
      have hfy0 : 0 ≤ finalSpacingY sim rows bottomLeft topRight spacing := le_trans h2r hfyb
      nlinarith [sq_nonneg (((c1 : ℚ) - c2) *
          finalSpacingX sim cols bottomLeft topRight spacing),
        sq_nonneg (finalSpacingY sim rows bottomLeft topRight spacing),
        sq_nonneg ((r1 : ℚ) - r2)]
    · have hcols : 1 < cols := by omega
      have hfxb := two_r_le_finalSpacingX sim rows cols bottomLeft topRight spacing hacc hcols
      have hd := one_le_sq_sub c1 c2 hc
      rw [hdx, hdy]
      have hfx0 : 0 ≤ finalSpacingX sim cols bottomLeft topRight spacing := le_trans h2r hfxb
      nlinarith [sq_nonneg (((r1 : ℚ) - r2) *
          finalSpacingY sim rows bottomLeft topRight spacing),
        sq_nonneg (finalSpacingX sim cols bottomLeft topRight spacing),
        sq_nonneg ((c1 : ℚ) - c2)]

/-- C5 amended witness: a 2×2 request with spacing (1, 1) would place columns
one unit apart (below the diameter 2) and is rejected; and on the accepted
1×2 request the two particles are at least a diameter apart. -/
theorem addParticleGrid_min_spacing_witness :
    ((1 < (2 : ℤ) ∧ finalSpacingX simA 2 ⟨0, 0⟩ ⟨100, 100⟩ ⟨1, 1⟩ < 2 * simA.particleRadius) ∨
      (1 < (2 : ℤ) ∧ finalSpacingY simA 2 ⟨0, 0⟩ ⟨100, 100⟩ ⟨1, 1⟩ < 2 * simA.particleRadius)) ∧
    AddParticleGrid simA 2 2 ⟨0, 0⟩ ⟨100, 100⟩ ⟨1, 1⟩ 1 = simA ∧
    (2 * simA.particleRadius) ^ 2 ≤
      ((gridParticlePos simA 1 2 ⟨0, 0⟩ ⟨100, 100⟩ ⟨10, 0⟩ 0 0).x -
          (gridParticlePos simA 1 2 ⟨0, 0⟩ ⟨100, 100⟩ ⟨10, 0⟩ 0 1).x) ^ 2 +
      ((gridParticlePos simA 1 2 ⟨0, 0⟩ ⟨100, 100⟩ ⟨10, 0⟩ 0 0).y -
          (gridParticlePos simA 1 2 ⟨0, 0⟩ ⟨100, 100⟩ ⟨10, 0⟩ 0 1).y) ^ 2 := by
  have hsp : (1 < (2 : ℤ) ∧ finalSpacingX simA 2 ⟨0, 0⟩ ⟨100, 100⟩ ⟨1, 1⟩ <
      2 * simA.particleRadius) ∨
      (1 < (2 : ℤ) ∧ finalSpacingY simA 2 ⟨0, 0⟩ ⟨100, 100⟩ ⟨1, 1⟩ <
        2 * simA.particleRadius) := by
    left
    norm_num [finalSpacingX, simA]
  refine ⟨hsp, (addParticleGrid_min_spacing simA 2 2 ⟨0, 0⟩ ⟨100, 100⟩ ⟨1, 1⟩ 1).1 hsp, ?_⟩
  exact (addParticleGrid_min_spacing simA 1 2 ⟨0, 0⟩ ⟨100, 100⟩ ⟨10, 0⟩ 1).2
    gridAccepted_simA12 (by norm_num [simA]) 0 0 0 1 (by norm_num) (by norm_num)
    (by norm_num) (by norm_num) (by decide)

/-- C10: the additional capacity test — the request is rejected with the
store unchanged whenever `(availH/(2·radius))·(availW/(2·radius)) < rows·cols`;
and when the requested spacing is nonnegative on both axes this test is
implied by the footprint test (it never fires on its own). -/
theorem addParticleGrid_capacity_check (sim : SimulationSystem) (rows cols : ℤ)
    (bottomLeft topRight spacing : Vec2) (mass : ℚ) :
    (((availableSpace sim bottomLeft topRight).y / (2 * sim.particleRadius)) *
          ((availableSpace sim bottomLeft topRight).x / (2 * sim.particleRadius)) <
        ((rows * cols : ℤ) : ℚ) →
      AddParticleGrid sim rows cols bottomLeft topRight spacing mass = sim) ∧
    (0 < sim.particleRadius → 0 ≤ spacing.x → 0 ≤ spacing.y → 1 ≤ rows → 1 ≤ cols →
      requiredWidth sim cols spacing ≤ (availableSpace sim bottomLeft topRight).x →
      requiredHeight sim rows spacing ≤ (availableSpace sim bottomLeft topRight).y →
      ((rows * cols : ℤ) : ℚ) ≤
        ((availableSpace sim bottomLeft topRight).y / (2 * sim.particleRadius)) *
          ((availableSpace sim bottomLeft topRight).x / (2 * sim.particleRadius))) := by
  constructor
  · intro h
    unfold AddParticleGrid
    by_cases c1 : rows ≤ 0 ∨ cols ≤ 0
    · rw [if_pos c1]
    rw [if_neg c1]
    by_cases c2 : (gridTopRight sim topRight).x ≤ (gridBottomLeft sim bottomLeft).x ∨
        (gridTopRight sim topRight).y ≤ (gridBottomLeft sim bottomLeft).y
    · rw [if_pos c2]
    rw [if_neg c2]
    by_cases c3 : (availableSpace sim bottomLeft topRight).x < requiredWidth sim cols spacing ∨
        (availableSpace sim bottomLeft topRight).y < requiredHeight sim rows spacing
    · rw [if_pos c3]
    rw [if_neg c3, if_pos h]
  · intro hr hsx hsy hrow hcol hw hh
    have h2r : (0 : ℚ) < 2 * sim.particleRadius := by linarith
    have hcq : (1 : ℚ) ≤ (cols : ℚ) := by exact_mod_cast hcol
    have hrq : (1 : ℚ) ≤ (rows : ℚ) := by exact_mod_cast hrow
    have hwc : (cols : ℚ) * (2 * sim.particleRadius) ≤
        (availableSpace sim bottomLeft topRight).x := by
      unfold requiredWidth at hw
      split at hw
      · rename_i hc
        have : 0 ≤ ((cols : ℚ) - 1) * spacing.x := by
          have : (1 : ℚ) < (cols : ℚ) := by exact_mod_cast hc
          have h1 : 0 ≤ (cols : ℚ) - 1 := by linarith
          exact mul_nonneg h1 hsx
        linarith
      · linarith
    have hhc : (rows : ℚ) * (2 * sim.particleRadius) ≤
        (availableSpace sim bottomLeft topRight).y := by
      unfold requiredHeight at hh
      split at hh
      · rename_i hc
        have : 0 ≤ ((rows : ℚ) - 1) * spacing.y := by
          have : (1 : ℚ) < (rows : ℚ) := by exact_mod_cast hc
          have h1 : 0 ≤ (rows : ℚ) - 1 := by linarith
          exact mul_nonneg h1 hsy
        linarith
      · linarith
    have hcle : (cols : ℚ) ≤
        (availableSpace sim bottomLeft topRight).x / (2 * sim.particleRadius) :=
      (le_div_iff₀ h2r).mpr hwc
    have hrle : (rows : ℚ) ≤
        (availableSpace sim bottomLeft topRight).y / (2 * sim.particleRadius) :=
      (le_div_iff₀ h2r).mpr hhc
    push_cast
    calc (rows : ℚ) * (cols : ℚ) ≤
        ((availableSpace sim bottomLeft topRight).y / (2 * sim.particleRadius)) *
          ((availableSpace sim bottomLeft topRight).x / (2 * sim.particleRadius)) := by
          apply mul_le_mul hrle hcle (by linarith) (by linarith)

/-- C10 witness: on the tight system `simB` a 3×4 request with spacing
(−10, −10) passes the footprint test yet fires the capacity test and is
rejected; and on `simA` with nonnegative spacing the capacity bound follows
from the footprint bound. -/
theorem addParticleGrid_capacity_check_witness :
    (((availableSpace simB ⟨0, 0⟩ ⟨8, 8⟩).y / (2 * simB.particleRadius)) *
          ((availableSpace simB ⟨0, 0⟩ ⟨8, 8⟩).x / (2 * simB.particleRadius)) <
        (((3 : ℤ) * 4 : ℤ) : ℚ)) ∧
    AddParticleGrid simB 3 4 ⟨0, 0⟩ ⟨8, 8⟩ ⟨-10, -10⟩ 1 = simB ∧
    (((2 : ℤ) * 2 : ℤ) : ℚ) ≤
      ((availableSpace simA ⟨0, 0⟩ ⟨100, 100⟩).y / (2 * simA.particleRadius)) *
        ((availableSpace simA ⟨0, 0⟩ ⟨100, 100⟩).x / (2 * simA.particleRadius)) := by
  have hcap : ((availableSpace simB ⟨0, 0⟩ ⟨8, 8⟩).y / (2 * simB.particleRadius)) *
      ((availableSpace simB ⟨0, 0⟩ ⟨8, 8⟩).x / (2 * simB.particleRadius)) <
      (((3 : ℤ) * 4 : ℤ) : ℚ) := by
    norm_num [availableSpace, gridBottomLeft, gridTopRight, Vec2.max2, Vec2.min2, simB]
  refine ⟨hcap, (addParticleGrid_capacity_check simB 3 4 ⟨0, 0⟩ ⟨8, 8⟩ ⟨-10, -10⟩ 1).1 hcap, ?_⟩
  exact (addParticleGrid_capacity_check simA 2 2 ⟨0, 0⟩ ⟨100, 100⟩ ⟨0, 0⟩ 1).2
    (by norm_num [simA]) (by norm_num) (by norm_num) (by norm_num) (by norm_num)
    (by norm_num [requiredWidth, availableSpace, gridBottomLeft, gridTopRight,
      Vec2.max2, Vec2.min2, simA])
    (by norm_num [requiredHeight, availableSpace, gridBottomLeft, gridTopRight,
      Vec2.max2, Vec2.min2, simA])

/-- C6: `GetViewMatrix` returns the orthographic projection whose window is
centered on the center of the simulation bounds (with the center's y reduced
by the border offset), whose visible width is the simulation width divided by
the zoom factor and whose visible height is that width divided by the aspect
ratio; a zoom factor above 1 shrinks the visible width (magnifies) whenever
the simulation has positive width. -/
theorem getViewMatrix_ortho (sim : SimulationSystem) (aspect simulationBorderOffset : ℚ) :
    GetViewMatrix sim aspect simulationBorderOffset =
      ortho (viewLeft sim simulationBorderOffset) (viewRight sim simulationBorderOffset)
        (viewBottom sim aspect simulationBorderOffset)
        (viewTop sim aspect simulationBorderOffset) (-1) 1 ∧
    viewRight sim simulationBorderOffset - viewLeft sim simulationBorderOffset =
      (sim.topRight.x - sim.bottomLeft.x) / sim.zoom ∧
    viewTop sim aspect simulationBorderOffset - viewBottom sim aspect simulationBorderOffset =
      ((sim.topRight.x - sim.bottomLeft.x) / sim.zoom) / aspect ∧
    (viewLeft sim simulationBorderOffset + viewRight sim simulationBorderOffset) / 2 =
      (sim.bottomLeft.x + sim.topRight.x) / 2 ∧
    (viewBottom sim aspect simulationBorderOffset + viewTop sim aspect simulationBorderOffset) / 2 =
      (sim.bottomLeft.y + sim.topRight.y) / 2 - simulationBorderOffset ∧
    (1 < sim.zoom → 0 < sim.topRight.x - sim.bottomLeft.x →
      viewRight sim simulationBorderOffset - viewLeft sim simulationBorderOffset <
        sim.topRight.x - sim.bottomLeft.x) := by
  refine ⟨rfl, ?_, ?_, ?_, ?_, ?_⟩
  · unfold viewRight viewLeft viewWidth
    ring
  · unfold viewTop viewBottom viewHeight viewWidth
    ring
  · unfold viewRight viewLeft viewCenter
    simp only
    ring
  · unfold viewBottom viewTop viewCenter
    simp only
    ring
  · intro hz hw
    have heq : viewRight sim simulationBorderOffset - viewLeft sim simulationBorderOffset =
        (sim.topRight.x - sim.bottomLeft.x) / sim.zoom := by
      unfold viewRight viewLeft viewWidth
      ring
    rw [heq]
    exact div_lt_self hw hz

/-- C6 witness: the view-matrix contract instantiated on `simC` (zoom 2,
simulation width 100), where zooming in indeed shrinks the visible width. -/
theorem getViewMatrix_ortho_witness :
    GetViewMatrix simC (4 / 3) 5 =
      ortho (viewLeft simC 5) (viewRight simC 5)
        (viewBottom simC (4 / 3) 5) (viewTop simC (4 / 3) 5) (-1) 1 ∧
    (1 : ℚ) < simC.zoom ∧ (0 : ℚ) < simC.topRight.x - simC.bottomLeft.x ∧
    viewRight simC 5 - viewLeft simC 5 < simC.topRight.x - simC.bottomLeft.x :=
  ⟨(getViewMatrix_ortho simC (4 / 3) 5).1, by norm_num [simC], by norm_num [simC],
    (getViewMatrix_ortho simC (4 / 3) 5).2.2.2.2.2 (by norm_num [simC]) (by norm_num [simC])⟩

/-- C8: starting from an empty accumulator, a frame of 3.5 fixed steps makes
the clock report exactly 3 steps and retain half a step of accumulated time;
a frame of 1000 fixed steps, with the cap below 1000, makes it report exactly
the configured maximum and discard the whole excess (accumulator reset to 0)
rather than carry it over. -/
theorem time_update_step_count (t : Time) (hdt : 0 < t.fixedDeltaTime)
    (hacc : t.accumulator = 0) :
    (3 ≤ t.maxSteps →
      (t.update ((7 / 2) * t.fixedDeltaTime)).1 = 3 ∧
      (t.update ((7 / 2) * t.fixedDeltaTime)).2.accumulator = (1 / 2) * t.fixedDeltaTime) ∧
    (t.maxSteps < 1000 →
      (t.update (1000 * t.fixedDeltaTime)).1 = t.maxSteps ∧
      (t.update (1000 * t.fixedDeltaTime)).2.accumulator = 0) := by
  have e1 : (t.accumulator + 7 / 2 * t.fixedDeltaTime) / t.fixedDeltaTime = 7 / 2 := by
    rw [hacc, zero_add, mul_div_assoc, div_self (ne_of_gt hdt), mul_one]
  have f1 : ⌊(7 / 2 : ℚ)⌋ = 3 := by norm_num
  have e2 : (t.accumulator + 1000 * t.fixedDeltaTime) / t.fixedDeltaTime = 1000 := by
    rw [hacc, zero_add, mul_div_assoc, div_self (ne_of_gt hdt), mul_one]
  have f2 : ⌊(1000 : ℚ)⌋ = 1000 := by norm_num
  constructor
  · intro h3
    unfold Time.update
    rw [e1, f1, if_neg (by omega)]
    refine ⟨rfl, ?_⟩
    simp only
    rw [hacc]
    push_cast
    ring
  · intro hcap
    unfold Time.update
    rw [e2, f2, if_pos (by omega)]
    exact ⟨rfl, rfl⟩

/-- C8 witness: a clock with step 1/60 and cap 8 — a 3.5-step frame yields 3
steps with half a step retained; a 1000-step frame yields 8 steps and a reset
accumulator. -/
theorem time_update_step_count_witness :
    (Time.update ⟨1 / 60, 0, 8⟩ ((7 / 2) * (1 / 60))).1 = 3 ∧
    (Time.update ⟨1 / 60, 0, 8⟩ ((7 / 2) * (1 / 60))).2.accumulator = (1 / 2) * (1 / 60) ∧
    (Time.update ⟨1 / 60, 0, 8⟩ (1000 * (1 / 60))).1 = 8 ∧
    (Time.update ⟨1 / 60, 0, 8⟩ (1000 * (1 / 60))).2.accumulator = 0 := by
  have h := time_update_step_count ⟨1 / 60, 0, 8⟩ (by norm_num) rfl
  exact ⟨(h.1 (by norm_num)).1, (h.1 (by norm_num)).2,
    (h.2 (by norm_num)).1, (h.2 (by norm_num)).2⟩

theorem abs_lt_of_sq_lt (a b : ℚ) (h : a ^ 2 < b ^ 2) (hb : 0 ≤ b) : |a| < b := by
  by_contra hc
  push_neg at hc
  have h2 : b ^ 2 ≤ |a| ^ 2 := pow_le_pow_left₀ hb hc 2
  rw [sq_abs] at h2
  linarith

theorem floor_div_dist_le (cs a b : ℚ) (hcs : 0 < cs) (h : |a - b| < cs) :
    (⌊a / cs⌋ - ⌊b / cs⌋).natAbs ≤ 1 := by
  rw [abs_lt] at h
  have h1 : a / cs < b / cs + 1 := by
    rw [div_lt_iff₀ hcs, add_mul, div_mul_cancel₀ _ (ne_of_gt hcs), one_mul]
    linarith
  have h2 : b / cs < a / cs + 1 := by
    rw [div_lt_iff₀ hcs, add_mul, div_mul_cancel₀ _ (ne_of_gt hcs), one_mul]
    linarith
  have f1 : ⌊a / cs⌋ ≤ ⌊b / cs⌋ + 1 := by
    have := Int.floor_mono (le_of_lt h1)
    rwa [show (1 : ℚ) = ((1 : ℤ) : ℚ) by norm_num, Int.floor_add_int] at this
  have f2 : ⌊b / cs⌋ ≤ ⌊a / cs⌋ + 1 := by
    have := Int.floor_mono (le_of_lt h2)
    rwa [show (1 : ℚ) = ((1 : ℤ) : ℚ) by norm_num, Int.floor_add_int] at this
  omega

theorem radii_getD_bounds (radii : List ℚ) (maxR : ℚ)
    (hr : ∀ r ∈ radii, 0 ≤ r ∧ r ≤ maxR) (hm : 0 ≤ maxR) (i : ℕ) :
    0 ≤ radii.getD i 0 ∧ radii.getD i 0 ≤ maxR := by
  by_cases h : i < radii.length
  · rw [List.getD_eq_getElem _ _ h]
    exact hr _ (List.getElem_mem h)
  · rw [List.getD_eq_default _ _ (by omega)]
    exact ⟨le_refl 0, hm⟩

theorem overlap_imp_near (cellSize maxR : ℚ) (radii : List ℚ) (ps : List Vec2)
    (hr : ∀ r ∈ radii, 0 ≤ r ∧ r ≤ maxR) (hm : 0 ≤ maxR) (hcs : 2 * maxR ≤ cellSize)
    (hcs0 : 0 < cellSize) (ij : ℕ × ℕ) (hov : overlapB radii ps ij = true) :
    nearCells cellSize (ps.getD ij.1 ⟨0, 0⟩) (ps.getD ij.2 ⟨0, 0⟩) = true := by
  unfold overlapB at hov
  rw [decide_eq_true_eq] at hov
  obtain ⟨ha1, ha2⟩ := radii_getD_bounds radii maxR hr hm ij.1
  obtain ⟨hb1, hb2⟩ := radii_getD_bounds radii maxR hr hm ij.2
  set p := ps.getD ij.1 ⟨0, 0⟩
  set q := ps.getD ij.2 ⟨0, 0⟩
  have hsum : radii.getD ij.1 0 + radii.getD ij.2 0 ≤ cellSize := by linarith
  have hsum0 : 0 ≤ radii.getD ij.1 0 + radii.getD ij.2 0 := by linarith
  have hx2 : (p.x - q.x) ^ 2 < cellSize ^ 2 := by
    nlinarith [sq_nonneg (p.y - q.y)]
  have hy2 : (p.y - q.y) ^ 2 < cellSize ^ 2 := by
    nlinarith [sq_nonneg (p.x - q.x)]
  have hx := abs_lt_of_sq_lt _ _ hx2 (le_of_lt hcs0)
  have hy := abs_lt_of_sq_lt _ _ hy2 (le_of_lt hcs0)
  unfold nearCells cellCoord
  rw [decide_eq_true_eq]
  exact ⟨floor_div_dist_le cellSize p.x q.x hcs0 hx, floor_div_dist_le cellSize p.y q.y hcs0 hy⟩

theorem collidingPairs_grid_eq (cellSize maxR : ℚ) (radii : List ℚ) (ps : List Vec2)
    (hr : ∀ r ∈ radii, 0 ≤ r ∧ r ≤ maxR) (hm : 0 ≤ maxR) (hcs : 2 * maxR ≤ cellSize)
    (hcs0 : 0 < cellSize) :
    collidingPairs radii ps (gridCandidates cellSize ps) =
      collidingPairs radii ps (exhaustiveCandidates ps) := by
  unfold collidingPairs gridCandidates exhaustiveCandidates
  rw [List.filter_filter]
  apply List.filter_congr
  intro ij hij
  by_cases hov : overlapB radii ps ij = true
  · rw [hov, overlap_imp_near cellSize maxR radii ps hr hm hcs hcs0 ij hov]
    rfl
  · have hov' : overlapB radii ps ij = false := by
      cases h : overlapB radii ps ij
      · rfl
      · exact absurd h hov
    rw [hov']
    rfl

/-- C7: running the modelled engine with the spatially partitioned candidate
generator or the exhaustive all-pairs generator produces identical particle
states, for every per-step advance (integration/walls), every pairwise
resolution function, every radii assignment bounded by `maxR`, every cell
size of at least one diameter, every step count and every initial state: the
spatial index is a pure optimization. -/
theorem runSim_partitioning_equiv (cellSize maxR : ℚ) (radii : List ℚ)
    (advance : PState → PState) (resolve : PState → ℕ × ℕ → PState)
    (hr : ∀ r ∈ radii, 0 ≤ r ∧ r ≤ maxR) (hm : 0 ≤ maxR)
    (hcs : 2 * maxR ≤ cellSize) (hcs0 : 0 < cellSize) (n : ℕ) (st : PState) :
    runSim (gridCandidates cellSize) advance resolve radii n st =
      runSim exhaustiveCandidates advance resolve radii n st := by
  induction n generalizing st with
  | zero => rfl
  | succ n ih =>
    show runSim (gridCandidates cellSize) advance resolve radii n
          (simStep (gridCandidates cellSize) advance resolve radii st) =
        runSim exhaustiveCandidates advance resolve radii n
          (simStep exhaustiveCandidates advance resolve radii st)
    rw [ih]
    have hstep : simStep (gridCandidates cellSize) advance resolve radii st =
        simStep exhaustiveCandidates advance resolve radii st := by
      unfold simStep
      rw [collidingPairs_grid_eq cellSize maxR radii (advance st).positions hr hm hcs hcs0]
    rw [hstep]

/-- C7 witness: the equivalence instantiated at two unit-radius particles,
cell size 2, identity advance and a trivial resolution, for one step. -/
theorem runSim_partitioning_equiv_witness :
    (∀ r ∈ [(1 : ℚ), 1], 0 ≤ r ∧ r ≤ 1) ∧ (0 : ℚ) ≤ 1 ∧
    2 * (1 : ℚ) ≤ 2 ∧ (0 : ℚ) < 2 ∧
    runSim (gridCandidates 2) id (fun s _ => s) [1, 1] 1 stateW =
      runSim exhaustiveCandidates id (fun s _ => s) [1, 1] 1 stateW :=
  ⟨by norm_num, by norm_num, by norm_num, by norm_num,
    runSim_partitioning_equiv 2 1 [1, 1] id (fun s _ => s)
      (by norm_num) (by norm_num) (by norm_num) (by norm_num) 1 stateW⟩
